import Mathlib

/- Formal model of the tiled-inference aggregation and vectorization engine
of adaf_inference.py.  Pixel coordinates, resolutions, scores and world
coordinates are modelled as rationals; prediction files are modelled as the
parsed tables of cells that the reader produces from them. -/

namespace Adaf

/-- A cell of a whitespace-delimited detection prediction file, as typed by
the reader: numeric columns and the label column. -/
inductive Cell
  | num (q : ℚ)
  | str (s : String)
deriving DecidableEq

/-- One detection record: one line of a prediction file after the ten column
names are assigned (adaf_inference.py lines 60-61), fields
x0 y0 x1 y1 label score epsg res x_min y_max. -/
structure RawRecord where
  x0 : ℚ
  y0 : ℚ
  x1 : ℚ
  y1 : ℚ
  label : String
  score : ℚ
  epsg : ℚ
  res : ℚ
  x_min : ℚ
  y_max : ℚ
deriving DecidableEq

/-- The quadruple passed to shapely box(...) at line 72, in the order
(x0, y0, x1, y1), after the world-coordinate transform. -/
structure QBox where
  x0 : ℚ
  y0 : ℚ
  x1 : ℚ
  y1 : ℚ
deriving DecidableEq

/-- The x-extent of the box polygon (its smallest and largest x). -/
def QBox.xSpan (b : QBox) : ℚ × ℚ := (min b.x0 b.x1, max b.x0 b.x1)

/-- The y-extent of the box polygon (its smallest and largest y). -/
def QBox.ySpan (b : QBox) : ℚ × ℚ := (min b.y0 b.y1, max b.y0 b.y1)

/-- A detection record carried forward after line 73 dropped the pixel and
georeferencing columns: label, score and the world-coordinate box. -/
structure WorldRecord where
  label : String
  score : ℚ
  geom : QBox
deriving DecidableEq

/-- Lines 67-72: world coordinates are x_world = x_min + res * x_pixel for
x0 and x1, and y_world = y_max - res * y_pixel for y0 and y1 (vertical
flip); the four transformed values form the box geometry. -/
def toWorld (r : RawRecord) : WorldRecord :=
  { label := r.label
    score := r.score
    geom :=
      { x0 := r.x_min + r.res * r.x0
        y0 := r.y_max - r.res * r.y0
        x1 := r.x_min + r.res * r.x1
        y1 := r.y_max - r.res * r.y1 } }

/-- Lines 67-76: transform every record of one file to world coordinates,
then keep exactly the records whose score is strictly above the threshold
(data = data[data.score > threshold]). -/
def detectionSurvivors (t : ℚ) (rs : List RawRecord) : List WorldRecord :=
  (rs.map toWorld).filter (fun w => decide (t < w.score))

/-- A per-tile detection prediction file: its path components and the
parsed table of whitespace-delimited cells.  A zero-byte file has no
rows. -/
structure PredFile where
  parts : List String
  rows : List (List Cell)
deriving DecidableEq

/-- The test os.stat(file).st_size == 0 of line 58: in this model a file is
zero bytes exactly when it has no rows. -/
def PredFile.isEmptyFile (f : PredFile) : Bool := f.rows.isEmpty

/-- The errors the vectorization entry points can raise. -/
inductive VecError
  | indexError
  | malformed (msg : String)
deriving DecidableEq

/-- Reads one ten-cell row into a detection record with the column layout
of line 61; any other shape fails. -/
def cellsToRecord : List Cell → Option RawRecord
  | [Cell.num x0, Cell.num y0, Cell.num x1, Cell.num y1, Cell.str lab,
     Cell.num sc, Cell.num ep, Cell.num res, Cell.num xm, Cell.num ym] =>
      some { x0 := x0, y0 := y0, x1 := x1, y1 := y1, label := lab
             score := sc, epsg := ep, res := res, x_min := xm, y_max := ym }
  | _ => none

/-- Lines 60-61: pandas reads the table, rejecting a row wider than the
first; then the assignment of the ten column names fails when the table
does not have exactly ten columns.  Rows that do not carry the ten typed
fields of the schema also fail (in the source such rows poison the frame
with missing values).  Every failure is a malformed-schema error. -/
def readRecords : List (List Cell) → Except VecError (List RawRecord)
  | [] => Except.error (VecError.malformed "EmptyDataError")
  | r0 :: rest =>
    if rest.any (fun r => decide (r0.length < r.length)) then
      Except.error (VecError.malformed "ParserError: ragged rows")
    else if r0.length = 10 then
      match (r0 :: rest).mapM cellsToRecord with
      | some recs => Except.ok recs
      | none => Except.error (VecError.malformed "schema type mismatch")
    else
      Except.error
        (VecError.malformed "Length mismatch: expected axis has 10 elements")

/-- A Geometry Record of detection mode: one row of the appended data after
lines 72-79: label, score, world-coordinate box, and the optional
provenance path. -/
structure OutRecord where
  label : String
  score : ℚ
  geom : QBox
  predictionPath : Option String
deriving DecidableEq

/-- The last three path components, joined: str(Path().joinpath(*file.parts[-3:]))
of line 79. -/
def pathTail (parts : List String) : String :=
  String.intercalate "/" (parts.drop (parts.length - 3))

/-- Lines 53-82: processing of one prediction file.  A zero-byte file is
skipped and contributes nothing; otherwise the records are read, mapped to
world coordinates, filtered by score, and tagged with the file's provenance
path when requested. -/
def processFile (t : ℚ) (keepPaths : Bool) (f : PredFile) :
    Except VecError (List OutRecord) :=
  if f.isEmptyFile then Except.ok []
  else
    match readRecords f.rows with
    | Except.error e => Except.error e
    | Except.ok recs =>
      let pp : Option String :=
        if keepPaths then some (pathTail f.parts) else none
      Except.ok ((detectionSurvivors t recs).map (fun w =>
        { label := w.label, score := w.score, geom := w.geom
          predictionPath := pp }))

/-- The per-file loop of lines 49-82, concatenating the per-file record
lists; the first malformed file aborts the loop with its error. -/
def processFiles (t : ℚ) (keepPaths : Bool) :
    List PredFile → Except VecError (List OutRecord)
  | [] => Except.ok []
  | f :: fs =>
    match processFile t keepPaths f with
    | Except.error e => Except.error e
    | Except.ok rs =>
      match processFiles t keepPaths fs with
      | Except.error e => Except.error e
      | Except.ok rest => Except.ok (rs ++ rest)

/-- One per-label prediction directory: the parent of the directory path,
and the prediction files the directory holds. -/
structure PredDir where
  parent : String
  files : List PredFile
deriving DecidableEq

/-- The ten column names assigned at line 61. -/
def odAllColumns : List String :=
  ["x0", "y0", "x1", "y1", "label", "score", "epsg", "res", "x_min", "y_max"]

/-- The columns dropped at line 73. -/
def odDroppedColumns : List String :=
  ["x0", "y0", "x1", "y1", "epsg", "res", "x_min", "y_max"]

/-- The non-geometry attribute columns of the written detection output: the
columns that line 73 does not drop, plus the provenance column of lines
78-79 when requested.  Dissolve-by-label with the default first-value
aggregation, explode, and reset_index at line 89 keep exactly these
columns. -/
def odOutputAttrs (keepPaths : Bool) : List String :=
  odAllColumns.filter (fun c => decide (c ∉ odDroppedColumns))
    ++ (if keepPaths then ["prediction_path"] else [])

/-- The observable outcome of object_detection_vectors: the Geometry
Records collected across all files, the returned string, the path of the
file written (none when nothing was written), and the attribute columns of
the written features. -/
structure ODResult where
  records : List OutRecord
  returned : String
  written : Option String
  attrs : List String
deriving DecidableEq

/-- object_detection_vectors (lines 25-96).  On an empty predictions dict
the very first step, list(predictions_dirs_dict.values())[0] at line 43,
raises IndexError.  Otherwise every file of every label directory is
processed in order and a malformed file aborts the run with its error.
When no record survives, the function returns the empty-string sentinel
and writes nothing (lines 93-94); otherwise it dissolves by label,
explodes, and writes one file next to the first prediction directory
(lines 45, 84-92). -/
def objectDetectionVectors (dirs : List (String × PredDir)) (t : ℚ)
    (keepPaths : Bool) : Except VecError ODResult :=
  match dirs with
  | [] => Except.error VecError.indexError
  | (_, d0) :: _ =>
    match processFiles t keepPaths (dirs.flatMap (fun ld => ld.2.files)) with
    | Except.error e => Except.error e
    | Except.ok allRecs =>
      if allRecs.isEmpty then
        Except.ok { records := [], returned := "", written := none, attrs := [] }
      else
        let outPath := d0.parent ++ "/object_detection.gpkg"
        Except.ok { records := allRecs, returned := outPath
                    written := some outPath, attrs := odOutputAttrs keepPaths }

/-- The concrete record of the coordinate-transform round-trip property:
tile origin x_min = 100, y_max = 200, resolution 0.5, pixel box
(10, 10, 20, 20). -/
def specRecord : RawRecord :=
  { x0 := 10, y0 := 10, x1 := 20, y1 := 20
    label := "barrow", score := 9/10, epsg := 3794
    res := 1/2, x_min := 100, y_max := 200 }

/-- C1: in detection mode the records kept are exactly those with score
strictly above the threshold (records with score at or below it are
discarded), each surviving record becomes one world-coordinate box with
x_world = x_min + res * x_pixel and y_world = y_max - res * y_pixel, and on
the spec's concrete record (x_min 100, y_max 200, res 0.5, pixel box
(10,10,20,20)) the world box spans x in [105,110] and y in [190,195]. -/
theorem detection_transform_correct (t : ℚ) (rs : List RawRecord) :
    detectionSurvivors t rs
      = (rs.filter (fun r => decide (t < r.score))).map toWorld
    ∧ (∀ r : RawRecord,
        (toWorld r).geom.x0 = r.x_min + r.res * r.x0
        ∧ (toWorld r).geom.x1 = r.x_min + r.res * r.x1
        ∧ (toWorld r).geom.y0 = r.y_max - r.res * r.y0
        ∧ (toWorld r).geom.y1 = r.y_max - r.res * r.y1)
    ∧ (toWorld specRecord).geom.xSpan = (105, 110)
    ∧ (toWorld specRecord).geom.ySpan = (190, 195) := by
  refine ⟨?_, fun r => ⟨rfl, rfl, rfl, rfl⟩,
    by norm_num [toWorld, specRecord, QBox.xSpan],
    by norm_num [toWorld, specRecord, QBox.ySpan]⟩
  induction rs with
  | nil => rfl
  | cons r rs ih =>
    simp only [detectionSurvivors] at ih ⊢
    have hs : (toWorld r).score = r.score := rfl
    simp only [List.map_cons, List.filter_cons, hs]
    by_cases h : t < r.score
    · simp [h, ih]
    · simp [h, ih]

/-- C5 (amended): in detection mode, raising the threshold never adds
detections: for thresholds t1 below t2, every record surviving at t2
survives at t1, and the count at t2 is at most the count at t1. -/
theorem detection_threshold_monotone (t1 t2 : ℚ) (h : t1 ≤ t2)
    (rs : List RawRecord) :
    (∀ w, w ∈ detectionSurvivors t2 rs → w ∈ detectionSurvivors t1 rs)
    ∧ (detectionSurvivors t2 rs).length ≤ (detectionSurvivors t1 rs).length := by
  have hsub : List.Sublist
      ((rs.map toWorld).filter (fun w => decide (t2 < w.score)))
      ((rs.map toWorld).filter (fun w => decide (t1 < w.score))) := by
    refine List.monotone_filter_right _ (fun w hw => ?_)
    simp only [decide_eq_true_eq] at hw ⊢
    exact lt_of_le_of_lt h hw
  exact ⟨fun w hw => hsub.mem hw, hsub.length_le⟩

lemma processFiles_all_empty (t : ℚ) (keepPaths : Bool) (fs : List PredFile)
    (h : ∀ f ∈ fs, f.rows = []) :
    processFiles t keepPaths fs = Except.ok [] := by
  induction fs with
  | nil => rfl
  | cons f fs ih =>
    have hf : processFile t keepPaths f = Except.ok [] := by
      have hz : f.isEmptyFile = true := by
        simp [PredFile.isEmptyFile, h f (List.mem_cons_self f fs)]
      simp [processFile, hz]
    have hrest := ih (fun g hg => h g (List.mem_cons_of_mem _ hg))
    simp [processFiles, hf, hrest]

/-- C4: when the predictions dict is non-empty and every prediction file of
every label is zero bytes, object_detection_vectors skips every file
without raising, collects zero Geometry Records, returns the empty-string
sentinel and writes no file. -/
theorem empty_prediction_files_skipped (dirs : List (String × PredDir))
    (t : ℚ) (keepPaths : Bool) (hne : dirs ≠ [])
    (hall : ∀ ld ∈ dirs, ∀ f ∈ ld.2.files, f.rows = []) :
    objectDetectionVectors dirs t keepPaths
      = Except.ok { records := [], returned := "", written := none, attrs := [] } := by
  cases dirs with
  | nil => exact absurd rfl hne
  | cons hd tl =>
    have hfiles : ∀ f ∈ (hd :: tl).flatMap (fun ld => ld.2.files), f.rows = [] := by
      intro f hf
      obtain ⟨ld, hld, hfm⟩ := List.mem_flatMap.mp hf
      exact hall ld hld f hfm
    obtain ⟨l0, d0⟩ := hd
    have hpf : processFiles t keepPaths
        (d0.files ++ tl.flatMap fun ld => ld.2.files) = Except.ok [] := by
      simpa using processFiles_all_empty t keepPaths _ hfiles
    simp [objectDetectionVectors, hpf]

/-- A concrete run with one label whose only prediction file is zero
bytes. -/
def c4Dirs : List (String × PredDir) :=
  [("barrow",
    { parent := "runs/data"
      files := [{ parts := ["runs", "data", "predictions_object_detection_barrow",
                            "tile_0.txt"]
                  rows := [] }] })]

/-- Witness for the empty-prediction-files theorem at the concrete one-file
run. -/
theorem empty_prediction_files_skipped_witness :
    c4Dirs ≠ []
    ∧ (∀ ld ∈ c4Dirs, ∀ f ∈ ld.2.files, f.rows = [])
    ∧ objectDetectionVectors c4Dirs (1/2) false
        = Except.ok { records := [], returned := "", written := none, attrs := [] } :=
  ⟨by decide, by decide,
   empty_prediction_files_skipped c4Dirs (1/2) false (by decide) (by decide)⟩

lemma readRecords_error_malformed (rows : List (List Cell)) (e : VecError)
    (h : readRecords rows = Except.error e) : ∃ msg, e = VecError.malformed msg := by
  cases rows with
  | nil =>
    simp only [readRecords, Except.error.injEq] at h
    exact ⟨"EmptyDataError", h.symm⟩
  | cons r0 rest =>
    simp only [readRecords] at h
    split at h
    · simp only [Except.error.injEq] at h
      exact ⟨_, h.symm⟩
    · split at h
      · split at h
        · simp at h
        · simp only [Except.error.injEq] at h
          exact ⟨_, h.symm⟩
      · simp only [Except.error.injEq] at h
        exact ⟨_, h.symm⟩

lemma processFile_error_malformed (t : ℚ) (keepPaths : Bool) (f : PredFile)
    (e : VecError) (h : processFile t keepPaths f = Except.error e) :
    ∃ msg, e = VecError.malformed msg := by
  unfold processFile at h
  split at h
  · simp at h
  · cases hr : readRecords f.rows with
    | error e0 =>
      rw [hr] at h
      simp only [Except.error.injEq] at h
      subst h
      exact readRecords_error_malformed f.rows e0 hr
    | ok recs =>
      rw [hr] at h
      simp at h

lemma processFiles_error_of_mem (t : ℚ) (keepPaths : Bool)
    (fs : List PredFile) (f : PredFile) (hf : f ∈ fs) (e : VecError)
    (he : processFile t keepPaths f = Except.error e) :
    ∃ e', processFiles t keepPaths fs = Except.error e'
      ∧ ∃ g ∈ fs, processFile t keepPaths g = Except.error e' := by
  induction fs with
  | nil => cases hf
  | cons g gs ih =>
    cases hg : processFile t keepPaths g with
    | error e0 =>
      exact ⟨e0, by simp [processFiles, hg], g, List.mem_cons_self g gs, hg⟩
    | ok rs =>
      have hf' : f ∈ gs := by
        rcases List.mem_cons.mp hf with rfl | hmem
        · rw [hg] at he; cases he
        · exact hmem
      obtain ⟨e', h1, g', hg', h2⟩ := ih hf'
      exact ⟨e', by simp [processFiles, hg, h1], g',
        List.mem_cons_of_mem _ hg', h2⟩

/-- C7: a prediction file all of whose lines have nine fields instead of
ten makes object_detection_vectors abort with a malformed-schema error (the
equivalent of MalformedRecordError); the file is not silently dropped. -/
theorem malformed_schema_aborts (dirs : List (String × PredDir)) (t : ℚ)
    (keepPaths : Bool) (ld : String × PredDir) (f : PredFile)
    (hld : ld ∈ dirs) (hf : f ∈ ld.2.files) (hne : f.rows ≠ [])
    (h9 : ∀ row ∈ f.rows, row.length = 9) :
    ∃ msg, objectDetectionVectors dirs t keepPaths
      = Except.error (VecError.malformed msg) := by
  have hferr : processFile t keepPaths f
      = Except.error (VecError.malformed "Length mismatch: expected axis has 10 elements") := by
    have hz : f.isEmptyFile = false := by
      simp [PredFile.isEmptyFile, hne]
    cases hrows : f.rows with
    | nil => exact absurd hrows hne
    | cons r0 rest =>
      have h0 : r0.length = 9 := h9 r0 (hrows ▸ List.mem_cons_self r0 rest)
      have hnr : ¬ ∃ x ∈ rest, 9 < x.length := by
        rintro ⟨x, hx, hlen⟩
        have h9x : x.length = 9 := h9 x (hrows ▸ List.mem_cons_of_mem _ hx)
        omega
      simp [processFile, hz, readRecords, hrows, h0, hnr]
  cases dirs with
  | nil => cases hld
  | cons hd tl =>
    obtain ⟨l0, d0⟩ := hd
    have hmem : f ∈ ((l0, d0) :: tl).flatMap (fun p => p.2.files) :=
      List.mem_flatMap.mpr ⟨ld, hld, hf⟩
    obtain ⟨e', h1, g', _, h2⟩ :=
      processFiles_error_of_mem t keepPaths _ f hmem _ hferr
    obtain ⟨msg, rfl⟩ := processFile_error_malformed t keepPaths g' e' h2
    have h1' : processFiles t keepPaths
        (d0.files ++ tl.flatMap fun ld => ld.2.files)
        = Except.error (VecError.malformed msg) := by
      simpa using h1
    exact ⟨msg, by simp [objectDetectionVectors, h1']⟩

/-- A prediction file whose single line has nine fields. -/
def c7File : PredFile :=
  { parts := ["runs", "data", "predictions_object_detection_barrow", "tile_0.txt"]
    rows := [[Cell.num 10, Cell.num 10, Cell.num 20, Cell.num 20,
              Cell.str "barrow", Cell.num (9/10), Cell.num 3794,
              Cell.num (1/2), Cell.num 100]] }

/-- A concrete run holding only the nine-field file. -/
def c7Dirs : List (String × PredDir) :=
  [("barrow", { parent := "runs/data", files := [c7File] })]

/-- Witness for the malformed-schema theorem at the nine-field file. -/
theorem malformed_schema_aborts_witness :
    ("barrow", PredDir.mk "runs/data" [c7File]) ∈ c7Dirs
    ∧ c7File ∈ (PredDir.mk "runs/data" [c7File]).files
    ∧ c7File.rows ≠ []
    ∧ (∀ row ∈ c7File.rows, row.length = 9)
    ∧ ∃ msg, objectDetectionVectors c7Dirs (1/2) false
        = Except.error (VecError.malformed msg) :=
  ⟨List.mem_cons_self _ _, List.mem_cons_self _ _, by decide, by decide,
   malformed_schema_aborts c7Dirs (1/2) false
     ("barrow", PredDir.mk "runs/data" [c7File]) c7File
     (List.mem_cons_self _ _) (List.mem_cons_self _ _) (by decide) (by decide)⟩

/-- Witness for the amended threshold-monotonicity theorem at thresholds
0.5 and 0.75 on a two-record list. -/
theorem detection_threshold_monotone_witness :
    (1/2 : ℚ) ≤ 3/4
    ∧ ((∀ w, w ∈ detectionSurvivors (3/4) [specRecord]
          → w ∈ detectionSurvivors (1/2) [specRecord])
       ∧ (detectionSurvivors (3/4) [specRecord]).length
          ≤ (detectionSurvivors (1/2) [specRecord]).length) :=
  ⟨by norm_num, detection_threshold_monotone (1/2) (3/4) (by norm_num) [specRecord]⟩

/-- A 2D affine transform in rasterio layout: world x = a * col + b * row + c
and world y = d * col + e * row + f. -/
structure Affine where
  a : ℚ
  b : ℚ
  c : ℚ
  d : ℚ
  e : ℚ
  f : ℚ
deriving DecidableEq

/-- Apply the affine transform to a (col, row) pixel coordinate. -/
def Affine.apply (T : Affine) (p : ℚ × ℚ) : ℚ × ℚ :=
  (T.a * p.1 + T.b * p.2 + T.c, T.d * p.1 + T.e * p.2 + T.f)

/-- A per-tile probability raster (lines 130-133): its grid of per-pixel
probabilities in row-major order, its affine transform and its CRS code. -/
structure ProbRaster where
  grid : List (List ℚ)
  transform : Affine
  crs : Int
deriving DecidableEq

/-- The probability at pixel (row, column). -/
def ProbRaster.val (r : ProbRaster) (p : ℕ × ℕ) : ℚ :=
  (r.grid.getD p.1 []).getD p.2 0

/-- The pixel (row, column) lies inside the raster. -/
def ProbRaster.inBounds (r : ProbRaster) (p : ℕ × ℕ) : Prop :=
  p.1 < r.grid.length ∧ p.2 < (r.grid.getD p.1 []).length

instance (r : ProbRaster) (p : ℕ × ℕ) : Decidable (r.inBounds p) := by
  unfold ProbRaster.inBounds
  infer_instance

/-- Lines 138-142: the binarized prediction raster: a pixel with
probability at or above the threshold becomes 1, any other pixel becomes
0. -/
def binVal (t : ℚ) (r : ProbRaster) (p : ℕ × ℕ) : ℕ :=
  if t ≤ r.val p then 1 else 0

/-- Four-connectivity of raster cells, the default connectivity of
rasterio.features.shapes (line 145). -/
def adjCell (p q : ℕ × ℕ) : Prop :=
  (p.1 = q.1 ∧ (p.2 + 1 = q.2 ∨ q.2 + 1 = p.2))
  ∨ (p.2 = q.2 ∧ (p.1 + 1 = q.1 ∨ q.1 + 1 = p.1))

instance (p q : ℕ × ℕ) : Decidable (adjCell p q) := by
  unfold adjCell
  infer_instance

/-- One step of region tracing: a move between two in-bounds neighbouring
cells that carry the same binarized value. -/
def regionStep (t : ℚ) (r : ProbRaster) (p q : ℕ × ℕ) : Prop :=
  r.inBounds p ∧ r.inBounds q ∧ adjCell p q ∧ binVal t r p = binVal t r q

instance (t : ℚ) (r : ProbRaster) (p q : ℕ × ℕ) :
    Decidable (regionStep t r p q) := by
  unfold regionStep
  infer_instance

/-- The connected region containing cell p, as traced by
rasterio.features.shapes: all cells reachable from p through in-bounds
neighbours of the same binarized value. -/
def regionOf (t : ℚ) (r : ProbRaster) (p : ℕ × ℕ) : Set (ℕ × ℕ) :=
  {q | Relation.ReflTransGen (regionStep t r) p q}

/-- The (region, value) pairs of list(shapes(prediction, transform)) at
line 145: one pair per connected region of the binarized raster. -/
def shapesOut (t : ℚ) (r : ProbRaster) : Set (Set (ℕ × ℕ) × ℕ) :=
  {rv | ∃ p, r.inBounds p ∧ rv = (regionOf t r p, binVal t r p)}

/-- Lines 148-151: of all traced regions, exactly the ones paired with
value 1 are kept. -/
def keptRegions (t : ℚ) (r : ProbRaster) : Set (Set (ℕ × ℕ)) :=
  {reg | (reg, 1) ∈ shapesOut t r}

/-- The world-coordinate polygon of a region: the image of its cells under
the raster's affine transform. -/
def worldPoly (r : ProbRaster) (reg : Set (ℕ × ℕ)) : Set (ℚ × ℚ) :=
  {xy | ∃ q ∈ reg, xy = r.transform.apply ((q.2 : ℚ), (q.1 : ℚ))}

/-- The kept polygons of one probability raster, in world coordinates. -/
def keptPolys (t : ℚ) (r : ProbRaster) : Set (Set (ℚ × ℚ)) :=
  {poly | ∃ reg ∈ keptRegions t r, poly = worldPoly r reg}

/-- All cells of a traced region carry the binarized value of its seed. -/
lemma region_const (t : ℚ) (r : ProbRaster) (p : ℕ × ℕ) :
    ∀ q ∈ regionOf t r p, binVal t r q = binVal t r p := by
  intro q hq
  induction hq with
  | refl => rfl
  | tail _ hstep ih => exact hstep.2.2.2 ▸ ih

/-- A region is contained in any cell set that holds its seed and is closed
under region steps. -/
lemma region_subset_closed (t : ℚ) (r : ProbRaster) (p : ℕ × ℕ)
    (X : Set (ℕ × ℕ)) (hp : p ∈ X)
    (hcl : ∀ a b, a ∈ X → regionStep t r a b → b ∈ X) :
    regionOf t r p ⊆ X := by
  intro q hq
  induction hq with
  | refl => exact hp
  | tail _ hstep ih => exact hcl _ _ ih hstep

/-- C3: segmentation-mode binarization maps a pixel to 1 exactly when its
probability is at least the threshold and to 0 exactly when it is below;
all cells of a traced connected region share one binarized value; the
regions kept are exactly the traced regions of cells whose binarized value
is 1; and every kept region yields its world polygon through the raster's
affine transform. -/
theorem segmentation_binarize_and_keep (t : ℚ) (r : ProbRaster)
    (p : ℕ × ℕ) (hp : r.inBounds p) :
    (binVal t r p = 1 ↔ t ≤ r.val p)
    ∧ (binVal t r p = 0 ↔ r.val p < t)
    ∧ (∀ q ∈ regionOf t r p, binVal t r q = binVal t r p)
    ∧ (regionOf t r p ∈ keptRegions t r ↔ t ≤ r.val p)
    ∧ (t ≤ r.val p → worldPoly r (regionOf t r p) ∈ keptPolys t r) := by
  have h1 : binVal t r p = 1 ↔ t ≤ r.val p := by
    unfold binVal
    split <;> simp_all
  have h0 : binVal t r p = 0 ↔ r.val p < t := by
    unfold binVal
    split <;> simp_all [not_le, le_of_lt]
  have hkept : regionOf t r p ∈ keptRegions t r ↔ t ≤ r.val p := by
    constructor
    · rintro ⟨q, hq, heq⟩
      obtain ⟨hreg, hval⟩ := Prod.mk.injEq .. ▸ heq
      have hpq : p ∈ regionOf t r q := hreg ▸ Relation.ReflTransGen.refl
      have := region_const t r q p hpq
      rw [← h1, this, ← hval]
    · intro hv
      exact ⟨p, hp, by rw [← h1.mpr hv]⟩
  refine ⟨h1, h0, region_const t r p, hkept, fun hv => ?_⟩
  exact ⟨regionOf t r p, hkept.mpr hv, rfl⟩

/-- The identity affine transform. -/
def idAffine : Affine := { a := 1, b := 0, c := 0, d := 0, e := 1, f := 0 }

/-- A one-pixel raster holding probability 0.9. -/
def onePixelRaster : ProbRaster :=
  { grid := [[9/10]], transform := idAffine, crs := 3794 }

/-- Witness for the segmentation binarize-and-keep theorem at the one-pixel
raster with threshold 0.5. -/
theorem segmentation_binarize_and_keep_witness :
    onePixelRaster.inBounds (0, 0)
    ∧ ((binVal (1/2) onePixelRaster (0, 0) = 1 ↔ (1/2 : ℚ) ≤ onePixelRaster.val (0, 0))
       ∧ (binVal (1/2) onePixelRaster (0, 0) = 0 ↔ onePixelRaster.val (0, 0) < 1/2)
       ∧ (∀ q ∈ regionOf (1/2) onePixelRaster (0, 0),
            binVal (1/2) onePixelRaster q = binVal (1/2) onePixelRaster (0, 0))
       ∧ (regionOf (1/2) onePixelRaster (0, 0) ∈ keptRegions (1/2) onePixelRaster
            ↔ (1/2 : ℚ) ≤ onePixelRaster.val (0, 0))
       ∧ ((1/2 : ℚ) ≤ onePixelRaster.val (0, 0)
            → worldPoly onePixelRaster (regionOf (1/2) onePixelRaster (0, 0))
                ∈ keptPolys (1/2) onePixelRaster)) :=
  ⟨by decide, segmentation_binarize_and_keep (1/2) onePixelRaster (0, 0) (by decide)⟩

/-- The 1-by-3 probability raster (0.9, 0.6, 0.9): raising the threshold
from 0.5 to 0.7 splits its single kept region in two. -/
def splitRaster : ProbRaster :=
  { grid := [[9/10, 6/10, 9/10]], transform := idAffine, crs := 3794 }

/-- The full pixel row of splitRaster. -/
def fullRow : Set (ℕ × ℕ) := {(0, 0), (0, 1), (0, 2)}

lemma splitRaster_cells (p : ℕ × ℕ) (hp : splitRaster.inBounds p) :
    p = (0, 0) ∨ p = (0, 1) ∨ p = (0, 2) := by
  obtain ⟨i, j⟩ := p
  obtain ⟨hi, hj⟩ := hp
  have hi' : i = 0 := by
    simpa [splitRaster] using hi
  subst hi'
  have hj' : j < 3 := by
    simpa [splitRaster] using hj
  interval_cases j <;> simp

lemma binVal_half_c0 : binVal (1/2) splitRaster (0, 0) = 1 := by
  norm_num [binVal, splitRaster, ProbRaster.val]

lemma binVal_half_c1 : binVal (1/2) splitRaster (0, 1) = 1 := by
  norm_num [binVal, splitRaster, ProbRaster.val]

lemma binVal_half_c2 : binVal (1/2) splitRaster (0, 2) = 1 := by
  norm_num [binVal, splitRaster, ProbRaster.val]

lemma binVal_seven_c0 : binVal (7/10) splitRaster (0, 0) = 1 := by
  norm_num [binVal, splitRaster, ProbRaster.val]

lemma binVal_seven_c1 : binVal (7/10) splitRaster (0, 1) = 0 := by
  norm_num [binVal, splitRaster, ProbRaster.val]

lemma binVal_seven_c2 : binVal (7/10) splitRaster (0, 2) = 1 := by
  norm_num [binVal, splitRaster, ProbRaster.val]

lemma regionOf_half (p : ℕ × ℕ) (hp : splitRaster.inBounds p) :
    regionOf (1/2) splitRaster p = fullRow := by
  have s01 : regionStep (1/2) splitRaster (0, 0) (0, 1) :=
    ⟨by decide, by decide, by decide, by rw [binVal_half_c0, binVal_half_c1]⟩
  have s12 : regionStep (1/2) splitRaster (0, 1) (0, 2) :=
    ⟨by decide, by decide, by decide, by rw [binVal_half_c1, binVal_half_c2]⟩
  have s10 : regionStep (1/2) splitRaster (0, 1) (0, 0) :=
    ⟨by decide, by decide, by decide, by rw [binVal_half_c1, binVal_half_c0]⟩
  have s21 : regionStep (1/2) splitRaster (0, 2) (0, 1) :=
    ⟨by decide, by decide, by decide, by rw [binVal_half_c2, binVal_half_c1]⟩
  have hreach : ∀ q : ℕ × ℕ, q = (0, 0) ∨ q = (0, 1) ∨ q = (0, 2)
      → Relation.ReflTransGen (regionStep (1/2) splitRaster) p q := by
    intro q hq
    rcases splitRaster_cells p hp with rfl | rfl | rfl
      <;> rcases hq with rfl | rfl | rfl
    · exact Relation.ReflTransGen.refl
    · exact Relation.ReflTransGen.single s01
    · exact Relation.ReflTransGen.tail (Relation.ReflTransGen.single s01) s12
    · exact Relation.ReflTransGen.single s10
    · exact Relation.ReflTransGen.refl
    · exact Relation.ReflTransGen.single s12
    · exact Relation.ReflTransGen.tail (Relation.ReflTransGen.single s21) s10
    · exact Relation.ReflTransGen.single s21
    · exact Relation.ReflTransGen.refl
  apply Set.Subset.antisymm
  · refine region_subset_closed _ _ _ fullRow ?_ ?_
    · rcases splitRaster_cells p hp with rfl | rfl | rfl <;> simp [fullRow]
    · intro a b _ hstep
      rcases splitRaster_cells b hstep.2.1 with rfl | rfl | rfl <;> simp [fullRow]
  · intro q hq
    have hq' : q = (0, 0) ∨ q = (0, 1) ∨ q = (0, 2) := by
      simpa [fullRow] using hq
    exact hreach q hq'

lemma keptRegions_half : keptRegions (1/2) splitRaster = {fullRow} := by
  ext reg
  constructor
  · rintro ⟨q, hq, heq⟩
    have hreg : reg = regionOf (1/2) splitRaster q :=
      congrArg Prod.fst heq
    rw [Set.mem_singleton_iff, hreg, regionOf_half q hq]
  · intro hreg
    rw [Set.mem_singleton_iff] at hreg
    subst hreg
    refine ⟨(0, 0), by decide, ?_⟩
    rw [regionOf_half (0, 0) (by decide), binVal_half_c0]

lemma regionOf_seven_left : regionOf (7/10) splitRaster (0, 0) = {(0, 0)} := by
  apply Set.Subset.antisymm
  · refine region_subset_closed _ _ _ {(0, 0)} rfl ?_
    intro a b ha hstep
    rw [Set.mem_singleton_iff] at ha
    subst ha
    rcases splitRaster_cells b hstep.2.1 with rfl | rfl | rfl
    · rfl
    · have hv := hstep.2.2.2
      rw [binVal_seven_c0, binVal_seven_c1] at hv
      exact absurd hv (by decide)
    · exact absurd hstep.2.2.1 (by decide)
  · intro q hq
    rw [Set.mem_singleton_iff] at hq
    subst hq
    exact Relation.ReflTransGen.refl

lemma regionOf_seven_right : regionOf (7/10) splitRaster (0, 2) = {(0, 2)} := by
  apply Set.Subset.antisymm
  · refine region_subset_closed _ _ _ {(0, 2)} rfl ?_
    intro a b ha hstep
    rw [Set.mem_singleton_iff] at ha
    subst ha
    rcases splitRaster_cells b hstep.2.1 with rfl | rfl | rfl
    · exact absurd hstep.2.2.1 (by decide)
    · have hv := hstep.2.2.2
      rw [binVal_seven_c2, binVal_seven_c1] at hv
      exact absurd hv (by decide)
    · rfl
  · intro q hq
    rw [Set.mem_singleton_iff] at hq
    subst hq
    exact Relation.ReflTransGen.refl

lemma keptRegions_seven :
    keptRegions (7/10) splitRaster = {({(0, 0)} : Set (ℕ × ℕ)), {(0, 2)}} := by
  ext reg
  constructor
  · rintro ⟨q, hq, heq⟩
    have hreg : reg = regionOf (7/10) splitRaster q :=
      congrArg Prod.fst heq
    have hval : (1 : ℕ) = binVal (7/10) splitRaster q :=
      congrArg Prod.snd heq
    rcases splitRaster_cells q hq with rfl | rfl | rfl
    · rw [hreg, regionOf_seven_left]
      exact Set.mem_insert _ _
    · rw [binVal_seven_c1] at hval
      exact absurd hval (by decide)
    · rw [hreg, regionOf_seven_right]
      exact Set.mem_insert_of_mem _ rfl
  · intro hreg
    rcases hreg with hreg | hreg
    · rw [hreg]
      refine ⟨(0, 0), by decide, ?_⟩
      rw [regionOf_seven_left, binVal_seven_c0]
    · rw [Set.mem_singleton_iff] at hreg
      rw [hreg]
      refine ⟨(0, 2), by decide, ?_⟩
      rw [regionOf_seven_right, binVal_seven_c2]

/-- C5 counterexample: on the segmentation raster (0.9, 0.6, 0.9) the
threshold pair 0.5 < 0.7 produces one traced geometry at the lower
threshold and two at the higher one, so raising the threshold adds a
geometry and the count at the higher threshold exceeds the count at the
lower one. -/
theorem threshold_monotonicity_counterexample :
    (1/2 : ℚ) < 7/10
    ∧ (keptRegions (1/2) splitRaster).ncard = 1
    ∧ (keptRegions (7/10) splitRaster).ncard = 2
    ∧ ¬ ((keptRegions (7/10) splitRaster).ncard
          ≤ (keptRegions (1/2) splitRaster).ncard) := by
  have hne : ({(0, 0)} : Set (ℕ × ℕ)) ≠ {(0, 2)} := by
    intro h
    have h02 : ((0, 2) : ℕ × ℕ) ∈ ({(0, 0)} : Set (ℕ × ℕ)) := by
      rw [h]
      exact rfl
    rw [Set.mem_singleton_iff] at h02
    exact absurd h02 (by decide)
  have hc1 : (keptRegions (1/2) splitRaster).ncard = 1 := by
    rw [keptRegions_half]
    exact Set.ncard_singleton _
  have hc2 : (keptRegions (7/10) splitRaster).ncard = 2 := by
    rw [keptRegions_seven]
    exact Set.ncard_pair hne
  refine ⟨by norm_num, hc1, hc2, ?_⟩
  rw [hc1, hc2]
  omega

/-- A per-tile segmentation prediction file: its path components and its
probability raster. -/
structure TifFile where
  parts : List String
  raster : ProbRaster
deriving DecidableEq

/-- One per-label segmentation prediction directory: the parent of the
directory path and the raster files the directory holds. -/
structure SegDir where
  parent : String
  files : List TifFile
deriving DecidableEq

/-- Boolean form of the check "if poly:" at line 154: the thresholded
raster has at least one foreground pixel. -/
def hasForeground (t : ℚ) (r : ProbRaster) : Bool :=
  (List.range r.grid.length).any (fun i =>
    (List.range ((r.grid.getD i []).length)).any (fun j =>
      decide (t ≤ r.val (i, j))))

/-- The per-tile feature collection contributed by one raster file (lines
129-160): present exactly when the thresholded raster has foreground,
carrying the dict label of line 157, the optional provenance path of lines
158-159, and the kept world polygons. -/
structure SegTileOut where
  label : String
  predictionPath : Option String
  polys : Set (Set (ℚ × ℚ))

/-- Lines 129-160 for one raster file. -/
def segProcessFile (t : ℚ) (keepPaths : Bool) (label : String)
    (f : TifFile) : Option SegTileOut :=
  if hasForeground t f.raster then
    some { label := label
           predictionPath := if keepPaths then some (pathTail f.parts) else none
           polys := keptPolys t f.raster }
  else none

/-- The non-geometry attribute columns of the written segmentation output:
the label column of line 157 plus the provenance column of lines 158-159
when requested; the dissolve and explode at line 167 keep them. -/
def segOutputAttrs (keepPaths : Bool) : List String :=
  ["label"] ++ (if keepPaths then ["prediction_path"] else [])

/-- The observable outcome of semantic_segmentation_vectors: the per-tile
feature collections, the returned string, the file written (none when
nothing was written) and the attribute columns of the written features. -/
structure SegResult where
  tiles : List SegTileOut
  returned : String
  written : Option String
  attrs : List String

/-- semantic_segmentation_vectors (lines 99-174).  On an empty predictions
dict the very first step, list(predictions_dirs_dict.values())[0] at line
118, raises IndexError.  Otherwise each label directory's rasters are
processed, a tile without foreground contributes nothing, and when no tile
contributes the function returns the empty-string sentinel and writes
nothing (lines 171-172); otherwise it dissolves by label, explodes, and
writes one file next to the first prediction directory (lines 120,
162-170). -/
def semanticSegmentationVectors (dirs : List (String × SegDir)) (t : ℚ)
    (keepPaths : Bool) : Except VecError SegResult :=
  match dirs with
  | [] => Except.error VecError.indexError
  | (_, d0) :: _ =>
    let tiles := dirs.flatMap (fun ld =>
      ld.2.files.filterMap (segProcessFile t keepPaths ld.1))
    if tiles.isEmpty then
      Except.ok { tiles := [], returned := "", written := none, attrs := [] }
    else
      Except.ok { tiles := tiles
                  returned := d0.parent ++ "/semantic_segmentation.gpkg"
                  written := some (d0.parent ++ "/semantic_segmentation.gpkg")
                  attrs := segOutputAttrs keepPaths }

/-- C10: called with an empty predictions dict, each vectorization entry
point fails at once with the IndexError of taking the first directory
value, before reading any file and before producing the empty-string
sentinel. -/
theorem empty_dict_index_error (t : ℚ) (keepPaths : Bool) :
    objectDetectionVectors [] t keepPaths = Except.error VecError.indexError
    ∧ semanticSegmentationVectors [] t keepPaths
        = Except.error VecError.indexError :=
  ⟨rfl, rfl⟩

/-- A cleanup action of the orchestrator: one of the shutil.rmtree or
Path.unlink calls of lines 429-431, 449-450 and 456-459. -/
inductive CleanupAction
  | removePredDir (dir : String)
  | removeVisDir (dir : String)
  | unlinkVrt (path : String)
deriving DecidableEq

/-- The state reaching the mode dispatch of main_routine (line 421):
the requested mode string, the retention flags, the visualization artifact
paths produced earlier in the routine, the per-label prediction directories
each mode would produce, and the vector path each mode's vectorization
would return. -/
structure DispatchIn where
  mlType : String
  saveMLOutput : Bool
  saveVis : Bool
  visPath : String
  vrtPath : Option String
  odPredDirs : List (String × String)
  segPredDirs : List (String × String)
  odVectorPath : String
  segVectorPath : String

/-- Lines 456-459: removal of the visualization artifacts, reached only
after a successful mode branch. -/
def visCleanup (i : DispatchIn) : List CleanupAction :=
  if ¬ i.saveVis then
    [CleanupAction.removeVisDir i.visPath]
      ++ (match i.vrtPath with
          | some v => [CleanupAction.unlinkVrt v]
          | none => [])
  else []

/-- The mode dispatch and cleanup of main_routine (lines 421-463): the
object-detection branch, the segmentation branch, and the raise of line
453 for any other mode string, which happens before any cleanup call, so
the failure path performs no action. -/
def mainDispatch (i : DispatchIn) : Except String String × List CleanupAction :=
  if i.mlType = "object detection" then
    (Except.ok i.odVectorPath,
      (if ¬ i.saveMLOutput then
        i.odPredDirs.map (fun ld => CleanupAction.removePredDir ld.2)
       else [])
      ++ visCleanup i)
  else if i.mlType = "segmentation" then
    (Except.ok i.segVectorPath,
      (if ¬ i.saveMLOutput then
        i.segPredDirs.map (fun ld => CleanupAction.removePredDir ld.2)
       else [])
      ++ visCleanup i)
  else
    (Except.error "Wrong ml_type: choose 'object detection' or 'segmentation'", [])

/-- C8: an inference-mode string other than the two supported ones makes
the orchestrator raise a fatal user-visible error, and this failure path
performs no cleanup: no prediction directory and no visualization artifact
is deleted. -/
theorem unsupported_mode_no_cleanup (i : DispatchIn)
    (h1 : i.mlType ≠ "object detection") (h2 : i.mlType ≠ "segmentation") :
    mainDispatch i
      = (Except.error "Wrong ml_type: choose 'object detection' or 'segmentation'",
         []) := by
  simp [mainDispatch, h1, h2]

/-- A dispatch state requesting the unsupported mode "classification". -/
def badModeIn : DispatchIn :=
  { mlType := "classification", saveMLOutput := false, saveVis := false
    visPath := "runs/data/visualization", vrtPath := some "runs/data/vis.vrt"
    odPredDirs := [("barrow", "runs/data/predictions_object_detection_barrow")]
    segPredDirs := [("barrow", "runs/data/predictions_segmentation_barrow")]
    odVectorPath := "runs/data/object_detection.gpkg"
    segVectorPath := "runs/data/semantic_segmentation.gpkg" }

/-- Witness for the unsupported-mode theorem at the mode string
"classification". -/
theorem unsupported_mode_no_cleanup_witness :
    badModeIn.mlType ≠ "object detection"
    ∧ badModeIn.mlType ≠ "segmentation"
    ∧ mainDispatch badModeIn
        = (Except.error "Wrong ml_type: choose 'object detection' or 'segmentation'",
           []) :=
  ⟨by decide, by decide,
   unsupported_mode_no_cleanup badModeIn (by decide) (by decide)⟩

/-- A Geometry Record entering the overlap resolver (the rows of
appended_data at line 86 / 164): a label and a region of the plane. -/
structure GeoRecord where
  label : String
  geom : Set (ℝ × ℝ)

/-- A feature of the resolved output dataset. -/
structure Feature where
  label : String
  geom : Set (ℝ × ℝ)

/-- dissolve(by=label) of lines 89 and 167: the union of all the geometry
carrying one label. -/
def labelUnion (rs : List GeoRecord) (L : String) : Set (ℝ × ℝ) :=
  {p | ∃ r ∈ rs, r.label = L ∧ p ∈ r.geom}

/-- dissolve(by=label).explode(...) of lines 89 and 167: one output feature
per connected component of each label's dissolved union. -/
def dissolveExplode (rs : List GeoRecord) : Set Feature :=
  {f | ∃ x ∈ labelUnion rs f.label,
        f.geom = connectedComponentIn (labelUnion rs f.label) x}

/-- C2: in the resolved output every feature is a connected region (a
single polygon part, never a multi-part geometry) and two distinct
features carrying the same label have disjoint geometry. -/
theorem resolver_disjoint_connected (rs : List GeoRecord) :
    (∀ f, f ∈ dissolveExplode rs → IsConnected f.geom)
    ∧ (∀ f1 f2, f1 ∈ dissolveExplode rs → f2 ∈ dissolveExplode rs
        → f1.label = f2.label → f1 ≠ f2 → Disjoint f1.geom f2.geom) := by
  constructor
  · rintro f ⟨x, hx, hgeom⟩
    rw [hgeom]
    exact isConnected_connectedComponentIn_iff.mpr hx
  · rintro f1 f2 ⟨x, hx, hg1⟩ ⟨y, hy, hg2⟩ hlab hne
    by_contra hnd
    obtain ⟨z, hz1, hz2⟩ := Set.not_disjoint_iff.mp hnd
    rw [hg1] at hz1
    rw [hg2, ← hlab] at hz2
    have e1 := connectedComponentIn_eq hz1
    have e2 := connectedComponentIn_eq hz2
    have hgeq : f1.geom = f2.geom := by
      rw [hg1, hg2, ← hlab, e1, e2]
    obtain ⟨l1, g1⟩ := f1
    obtain ⟨l2, g2⟩ := f2
    simp only at hlab hgeq
    rw [hlab, hgeq] at hne
    exact hne rfl

/-- The two seed points of the witness run, far enough apart that their
singletons are separate components. -/
def pA : ℝ × ℝ := (0, 0)

/-- Second seed point. -/
def pB : ℝ × ℝ := (2, 0)

/-- Two same-label records whose geometries are two separated points. -/
def wRecs : List GeoRecord :=
  [{ label := "barrow", geom := {pA} }, { label := "barrow", geom := {pB} }]

/-- The dissolved union of the witness records. -/
def wU : Set (ℝ × ℝ) := labelUnion wRecs "barrow"

lemma wU_eq : wU = {pA, pB} := by
  ext p
  constructor
  · rintro ⟨r, hr, _, hp⟩
    rcases List.mem_cons.mp hr with rfl | hr2
    · exact Set.mem_insert_iff.mpr (Or.inl hp)
    · rcases List.mem_cons.mp hr2 with rfl | hr3
      · exact Set.mem_insert_iff.mpr (Or.inr hp)
      · cases hr3
  · intro hp
    rcases Set.mem_insert_iff.mp hp with hp | hp
    · exact ⟨{ label := "barrow", geom := {pA} },
        List.mem_cons_self _ _, rfl, hp⟩
    · exact ⟨{ label := "barrow", geom := {pB} },
        List.mem_cons_of_mem _ (List.mem_cons_self _ _), rfl, hp⟩

lemma pA_mem_wU : pA ∈ wU := by
  rw [wU_eq]
  exact Set.mem_insert _ _

lemma pB_mem_wU : pB ∈ wU := by
  rw [wU_eq]
  exact Set.mem_insert_of_mem _ rfl

/-- The two separated points belong to different components of the
dissolved union. -/
lemma pB_not_in_componentA : pB ∉ connectedComponentIn wU pA := by
  intro hmem
  have hTsub : connectedComponentIn wU pA ⊆ {pA, pB} :=
    wU_eq ▸ connectedComponentIn_subset wU pA
  have hpre : IsPreconnected (connectedComponentIn wU pA) :=
    isPreconnected_connectedComponentIn
  have hpA : pA ∈ connectedComponentIn wU pA :=
    mem_connectedComponentIn pA_mem_wU
  have hUopen : IsOpen {p : ℝ × ℝ | p.1 < 1} :=
    isOpen_lt continuous_fst continuous_const
  have hVopen : IsOpen {p : ℝ × ℝ | 1 < p.1} :=
    isOpen_lt continuous_const continuous_fst
  have hcover : connectedComponentIn wU pA
      ⊆ {p : ℝ × ℝ | p.1 < 1} ∪ {p : ℝ × ℝ | 1 < p.1} := by
    intro q hq
    rcases Set.mem_insert_iff.mp (hTsub hq) with hq1 | hq1
    · left
      rw [hq1]
      norm_num [pA]
    · right
      rw [Set.mem_singleton_iff.mp hq1]
      norm_num [pB]
  have hTU : (connectedComponentIn wU pA ∩ {p : ℝ × ℝ | p.1 < 1}).Nonempty :=
    ⟨pA, hpA, by norm_num [pA]⟩
  have hTV : (connectedComponentIn wU pA ∩ {p : ℝ × ℝ | 1 < p.1}).Nonempty :=
    ⟨pB, hmem, by norm_num [pB]⟩
  obtain ⟨z, hzT, hzU, hzV⟩ := hpre _ _ hUopen hVopen hcover hTU hTV
  rcases Set.mem_insert_iff.mp (hTsub hzT) with hz1 | hz1
  · rw [hz1] at hzV
    norm_num [pA] at hzV
  · rw [Set.mem_singleton_iff.mp hz1] at hzU
    norm_num [pB] at hzU

/-- First output feature of the witness run. -/
def wF1 : Feature := { label := "barrow", geom := connectedComponentIn wU pA }

/-- Second output feature of the witness run. -/
def wF2 : Feature := { label := "barrow", geom := connectedComponentIn wU pB }

/-- Witness for the resolver disjointness-and-connectedness theorem on the
two-point run: the two components are distinct same-label features, each
connected, and disjoint. -/
theorem resolver_disjoint_connected_witness :
    wF1 ∈ dissolveExplode wRecs
    ∧ wF2 ∈ dissolveExplode wRecs
    ∧ wF1 ≠ wF2
    ∧ IsConnected wF1.geom
    ∧ Disjoint wF1.geom wF2.geom := by
  have h1 : wF1 ∈ dissolveExplode wRecs := ⟨pA, pA_mem_wU, rfl⟩
  have h2 : wF2 ∈ dissolveExplode wRecs := ⟨pB, pB_mem_wU, rfl⟩
  have hne : wF1 ≠ wF2 := by
    intro h
    have hg : connectedComponentIn wU pA = connectedComponentIn wU pB :=
      congrArg Feature.geom h
    exact pB_not_in_componentA
      (hg ▸ mem_connectedComponentIn pB_mem_wU)
  exact ⟨h1, h2, hne,
    (resolver_disjoint_connected wRecs).1 wF1 h1,
    (resolver_disjoint_connected wRecs).2 wF1 wF2 h1 h2 rfl hne⟩

/-- Record r contributes to output feature f when f is an output feature of
r's label whose geometry meets r's geometry; dissolve(by=label) groups rows
by label before any union is taken, so a record only ever feeds features of
its own label. -/
def contributesTo (rs : List GeoRecord) (r : GeoRecord) (f : Feature) : Prop :=
  f ∈ dissolveExplode rs ∧ f.label = r.label ∧ (r.geom ∩ f.geom).Nonempty

/-- C6: the resolver never merges records carrying different labels: a
listed record with nonempty geometry contributes to at least one output
feature, and two records with distinct labels never contribute to a common
feature, however much their polygons overlap. -/
theorem resolver_label_isolation (rs : List GeoRecord) (r1 r2 : GeoRecord)
    (h1 : r1 ∈ rs) (hlab : r1.label ≠ r2.label) :
    (r1.geom.Nonempty → ∃ f, contributesTo rs r1 f)
    ∧ (∀ f, ¬ (contributesTo rs r1 f ∧ contributesTo rs r2 f)) := by
  constructor
  · rintro ⟨x, hx⟩
    have hxU : x ∈ labelUnion rs r1.label := ⟨r1, h1, rfl, hx⟩
    exact ⟨{ label := r1.label
             geom := connectedComponentIn (labelUnion rs r1.label) x },
      ⟨x, hxU, rfl⟩, rfl, x, hx, mem_connectedComponentIn hxU⟩
  · rintro f ⟨⟨_, hl1, _⟩, ⟨_, hl2, _⟩⟩
    exact hlab (hl1.symm.trans hl2)

/-- Two overlapping records of different labels for the isolation
witness. -/
def isoRecs : List GeoRecord :=
  [{ label := "barrow", geom := {pA} }, { label := "enclosure", geom := {pA} }]

/-- The barrow record of the isolation witness. -/
def isoR1 : GeoRecord := { label := "barrow", geom := {pA} }

/-- The enclosure record of the isolation witness. -/
def isoR2 : GeoRecord := { label := "enclosure", geom := {pA} }

/-- Witness for the label-isolation theorem on two records of different
labels sharing the same point geometry. -/
theorem resolver_label_isolation_witness :
    (∃ f, contributesTo isoRecs isoR1 f)
    ∧ (∀ f, ¬ (contributesTo isoRecs isoR1 f ∧ contributesTo isoRecs isoR2 f)) := by
  have h := resolver_label_isolation isoRecs isoR1 isoR2
    (List.mem_cons_self _ _) (by decide)
  exact ⟨h.1 ⟨pA, rfl⟩, h.2⟩

lemma odOutputAttrs_eq (keepPaths : Bool) :
    odOutputAttrs keepPaths
      = ["label", "score"] ++ (if keepPaths then ["prediction_path"] else []) := by
  cases keepPaths <;> rfl

lemma segOutputAttrs_eq (keepPaths : Bool) :
    segOutputAttrs keepPaths
      = ["label"] ++ (if keepPaths then ["prediction_path"] else []) := by
  cases keepPaths <;> rfl

/-- C9 (amended): every feature written by the detection vectorizer carries
exactly the attributes label, score and, when requested, prediction_path;
every feature written by the segmentation vectorizer carries exactly label
and, when requested, prediction_path. -/
theorem output_attrs_amended (odDirs : List (String × PredDir))
    (segDirs : List (String × SegDir)) (t : ℚ) (keepPaths : Bool) :
    (∀ res, objectDetectionVectors odDirs t keepPaths = Except.ok res
      → res.written.isSome
      → res.attrs = ["label", "score"]
          ++ (if keepPaths then ["prediction_path"] else []))
    ∧ (∀ res, semanticSegmentationVectors segDirs t keepPaths = Except.ok res
      → res.written.isSome
      → res.attrs = ["label"]
          ++ (if keepPaths then ["prediction_path"] else [])) := by
  constructor
  · intro res hres hw
    cases odDirs with
    | nil => cases hres
    | cons hd tl =>
      obtain ⟨l0, d0⟩ := hd
      simp only [objectDetectionVectors] at hres
      split at hres
      · cases hres
      · split at hres
        · injection hres with h
          rw [← h] at hw
          simp at hw
        · injection hres with h
          rw [← h]
          exact odOutputAttrs_eq keepPaths
  · intro res hres hw
    cases segDirs with
    | nil => cases hres
    | cons hd tl =>
      obtain ⟨l0, d0⟩ := hd
      simp only [semanticSegmentationVectors] at hres
      split at hres
      · injection hres with h
        rw [← h] at hw
        simp at hw
      · injection hres with h
        rw [← h]
        exact segOutputAttrs_eq keepPaths

/-- A well-formed ten-field prediction line with score 0.9 for the
concrete detection run. -/
def c9Raw : RawRecord :=
  { x0 := 10, y0 := 10, x1 := 20, y1 := 20, label := "barrow", score := 9/10
    epsg := 3794, res := 1/2, x_min := 100, y_max := 200 }

/-- The prediction file holding that single line. -/
def c9ODFile : PredFile :=
  { parts := ["runs", "data", "predictions_object_detection_barrow", "tile_0.txt"]
    rows := [[Cell.num 10, Cell.num 10, Cell.num 20, Cell.num 20,
              Cell.str "barrow", Cell.num (9/10), Cell.num 3794,
              Cell.num (1/2), Cell.num 100, Cell.num 200]] }

/-- The concrete detection run with one label and one file. -/
def c9ODDirs : List (String × PredDir) :=
  [("barrow", { parent := "runs/data", files := [c9ODFile] })]

/-- The surviving Geometry Record of the concrete detection run. -/
def c9OutRec : OutRecord :=
  { label := "barrow", score := 9/10
    geom := { x0 := 105, y0 := 195, x1 := 110, y1 := 190 }
    predictionPath := none }

/-- The outcome of the concrete detection run. -/
def c9ODRes : ODResult :=
  { records := [c9OutRec]
    returned := "runs/data" ++ "/object_detection.gpkg"
    written := some ("runs/data" ++ "/object_detection.gpkg")
    attrs := odOutputAttrs false }

lemma c9_readRecords : readRecords c9ODFile.rows = Except.ok [c9Raw] := rfl

lemma c9_outRec :
    toWorld c9Raw
      = { label := "barrow", score := 9/10
          geom := { x0 := 105, y0 := 195, x1 := 110, y1 := 190 } } := by
  simp only [toWorld, c9Raw]
  norm_num

lemma c9_survivors : detectionSurvivors (1/2) [c9Raw] = [toWorld c9Raw] := by
  have hsc : (toWorld c9Raw).score = 9/10 := rfl
  simp [detectionSurvivors, hsc]
  norm_num

lemma c9_processFile :
    processFile (1/2) false c9ODFile = Except.ok [c9OutRec] := by
  have hz : c9ODFile.isEmptyFile = false := rfl
  simp only [processFile, hz, Bool.false_eq_true, if_false, c9_readRecords,
    c9_survivors, List.map_cons, List.map_nil, c9_outRec]
  rfl

lemma c9_od_eval :
    objectDetectionVectors c9ODDirs (1/2) false = Except.ok c9ODRes := by
  simp only [c9ODDirs, objectDetectionVectors, List.flatMap_cons,
    List.flatMap_nil, List.append_nil, processFiles, c9_processFile,
    List.isEmpty_cons, Bool.false_eq_true, if_false]
  rfl

/-- C9 counterexample: the concrete detection run writes a file whose
features carry the attribute score besides label, so a written feature
carries an attribute that is neither label nor prediction_path. -/
theorem output_attrs_counterexample :
    objectDetectionVectors c9ODDirs (1/2) false = Except.ok c9ODRes
    ∧ c9ODRes.written.isSome = true
    ∧ "score" ∈ c9ODRes.attrs
    ∧ "score" ∉ ["label", "prediction_path"] :=
  ⟨c9_od_eval, rfl, by decide, by decide⟩

/-- The segmentation file of the concrete run: the one-pixel raster with
probability 0.9. -/
def c9SegFile : TifFile :=
  { parts := ["runs", "data", "predictions_segmentation_barrow", "tile_0.tif"]
    raster := onePixelRaster }

/-- The concrete segmentation run with one label and one raster. -/
def c9SegDirs : List (String × SegDir) :=
  [("barrow", { parent := "runs/data", files := [c9SegFile] })]

/-- The outcome of the concrete segmentation run. -/
def c9SegRes : SegResult :=
  { tiles := [{ label := "barrow", predictionPath := none
                polys := keptPolys (1/2) onePixelRaster }]
    returned := "runs/data" ++ "/semantic_segmentation.gpkg"
    written := some ("runs/data" ++ "/semantic_segmentation.gpkg")
    attrs := segOutputAttrs false }

lemma c9_hasForeground : hasForeground (1/2) onePixelRaster = true := by
  simp [hasForeground, onePixelRaster, ProbRaster.val]
  norm_num

lemma c9_seg_eval :
    semanticSegmentationVectors c9SegDirs (1/2) false = Except.ok c9SegRes := by
  simp only [c9SegDirs, semanticSegmentationVectors, List.flatMap_cons,
    List.flatMap_nil, List.append_nil, List.filterMap_cons, List.filterMap_nil,
    segProcessFile, c9SegFile, c9_hasForeground, if_true,
    List.isEmpty_cons, Bool.false_eq_true, if_false]
  rfl

/-- Witness for the amended output-attribute theorem at the two concrete
runs. -/
theorem output_attrs_amended_witness :
    c9ODRes.attrs
      = ["label", "score"] ++ (if false then ["prediction_path"] else [])
    ∧ c9SegRes.attrs
      = ["label"] ++ (if false then ["prediction_path"] else []) :=
  ⟨(output_attrs_amended c9ODDirs c9SegDirs (1/2) false).1 c9ODRes c9_od_eval rfl,
   (output_attrs_amended c9ODDirs c9SegDirs (1/2) false).2 c9SegRes c9_seg_eval rfl⟩

end Adaf
